import Mathlib

/-!
Verification of the Historical-Archive-QA-System server against its
natural-language specification.

The Python modules under `server/app` are shallowly embedded:
pure functions become Lean functions, Python `str` becomes `String`
(or `List Char` for character-level processing), Python `float`
arithmetic is modelled as exact rational arithmetic over `ℚ`,
Python `int` becomes `ℤ`/`ℕ`, dictionaries become association lists
that preserve insertion order, and Python sets become duplicate-free
lists (order-sensitive statements about sets are phrased via
membership).  Loops are embedded as structural recursions; loops that
advance a cursor by a variable amount carry an explicit fuel argument
that is always instantiated with an upper bound on the iteration
count, so every definition evaluates by kernel reduction.
-/

/-! ## Generic helpers -/

/-- Python `round` on a real value: round half to even (banker's rounding).
Models `round(x)` / `int(round(x))` on the exact rational value. -/
def pyRound (q : ℚ) : ℤ :=
  if q - ⌊q⌋ < 1 / 2 then ⌊q⌋
  else if q - ⌊q⌋ > 1 / 2 then ⌊q⌋ + 1
  else if ⌊q⌋ % 2 = 0 then ⌊q⌋ else ⌊q⌋ + 1

/-- Python `round(x, 3)`: round to three decimal places, half to even. -/
def pyRound3 (q : ℚ) : ℚ :=
  (pyRound (q * 1000) : ℚ) / 1000

/-! ## `document_loader.split_text_into_chunks` -/

/-- The per-iteration cursor advance `max(chunk_size - chunk_overlap, 1)`.
(`ℕ` truncated subtraction followed by `max · 1` agrees with Python's
`max(chunk_size - chunk_overlap, 1)` on integers.) -/
def chunkStep (chunk_size chunk_overlap : ℕ) : ℕ :=
  max (chunk_size - chunk_overlap) 1

/-- The `while start < len(text)` loop of `split_text_into_chunks`,
phrased on the remaining suffix of the text: each iteration emits
`text[start:start+chunk_size]` and advances `start` by `step`.
`fuel` bounds the number of iterations; since each iteration drops at
least one character (`step ≥ 1`), `fuel = length of the suffix` is
always enough. -/
def splitChunksGo (chunk_size step : ℕ) : ℕ → List Char → List (List Char)
  | _, [] => []
  | 0, _ => []
  | fuel + 1, rest => rest.take chunk_size :: splitChunksGo chunk_size step fuel (rest.drop step)

/-- `split_text_into_chunks(text, chunk_size, chunk_overlap)` from
`server/app/infra/document_loader.py`. -/
def split_text_into_chunks (text : List Char) (chunk_size chunk_overlap : ℕ) :
    List (List Char) :=
  splitChunksGo chunk_size (chunkStep chunk_size chunk_overlap) text.length text

/-! ## `document_loader.extract_text_from_pdf` page numbering

PDF parsing itself is done by the external PyMuPDF library, so a page
is modelled by its extraction outcome: whether `page.get_text()` was
non-blank, and the result of `_extract_page_number_from_text` on it
(`none` when no page number was found; the extractor only ever
returns numbers in `[1, 10000]`, but the model keeps Python's
truthiness test on the result). -/

structure PageIn where
  hasText : Bool
  extracted : Option ℤ
deriving DecidableEq, Repr

/-- The page loop of `extract_text_from_pdf`: starting at physical
0-based index `i`, build the `page_texts` page numbers (direct
extraction, else fallback `pdf_page_idx + 1`) and the
`extracted_page_numbers` list of `(pdf_page_idx, extracted_number)`
for pages whose direct extraction was truthy.  Pages with blank text
are skipped entirely. -/
def buildPageTexts : ℕ → List PageIn → List ℤ × List (ℕ × ℤ)
  | _, [] => ([], [])
  | i, pg :: rest =>
    let tl := buildPageTexts (i + 1) rest
    if pg.hasText then
      match pg.extracted with
      | some n =>
        if n ≠ 0 then (n :: tl.1, (i, n) :: tl.2)
        else (((i : ℤ) + 1) :: tl.1, tl.2)
      | none => (((i : ℤ) + 1) :: tl.1, tl.2)
    else tl

/-- `avg_offset`: mean of `extracted_num - (pdf_idx + 1)` over the
pages with a direct extraction (`0` when there are none). -/
def avgOffset (epn : List (ℕ × ℤ)) : ℚ :=
  let offsets := epn.map (fun pr => pr.2 - ((pr.1 : ℤ) + 1))
  if offsets = [] then 0 else ((offsets.sum : ℤ) : ℚ) / (offsets.length : ℚ)

/-- The correction loop: walking `page_texts` with enumeration index
`idx` (position in the surviving list, starting at `i`), a stored page
number equal to `idx + 1` is treated as a physical-index fallback and
shifted by `off` when the corrected value stays positive. -/
def applyOffsetAt (off : ℤ) : ℕ → List ℤ → List ℤ
  | _, [] => []
  | i, p :: rest =>
    (if p = (i : ℤ) + 1 then (if p + off > 0 then p + off else p) else p)
      :: applyOffsetAt off (i + 1) rest

/-- The page numbers produced by `extract_text_from_pdf` for a list of
pages (physical order), including the offset-correction pass.  (The
`ValueError` raised when no page has text is outside the claims and
not modelled; the function then returns `[]`.) -/
def extract_text_from_pdf_pages (pages : List PageIn) : List ℤ :=
  let pt := (buildPageTexts 0 pages).1
  let epn := (buildPageTexts 0 pages).2
  if epn ≠ [] then
    if 1 / 2 < |avgOffset epn| ∧ |avgOffset epn| < 20 then
      applyOffsetAt (pyRound (avgOffset epn)) 0 pt
    else pt
  else pt

/-! ## String helpers (Python `str` operations on `List Char`)

Python's `str.strip`/`lower`/`split`, regex word tokenization and
substring tests are modelled character-by-character; the repository
only processes ASCII-relevant patterns (`\w`, `[A-Z]`, `\d`, `\s`),
so the ASCII readings of these character classes are used. -/

/-- Python whitespace (`\s`, `str.strip`, `str.split`). -/
def isPySpace (c : Char) : Bool :=
  c == ' ' || c == '\t' || c == '\n' || c == '\r' || c == '\x0b' || c == '\x0c'

/-- `\w`: word character (ASCII letters, digits, underscore). -/
def isWordChar (c : Char) : Bool :=
  c.isAlphanum || c == '_'

def isUpperAZ (c : Char) : Bool := 'A' ≤ c && c ≤ 'Z'

def isLowerAZ (c : Char) : Bool := 'a' ≤ c && c ≤ 'z'

/-- drop trailing characters satisfying `p`. -/
def dropTrail (p : Char → Bool) (l : List Char) : List Char :=
  (l.reverse.dropWhile p).reverse

/-- Python `str.strip()`. -/
def pyStrip (l : List Char) : List Char :=
  dropTrail isPySpace (l.dropWhile isPySpace)

/-- Python `str.lower()` (ASCII). -/
def toLowerList (l : List Char) : List Char :=
  l.map Char.toLower

/-- `leadsWith pat l`: `l` starts with `pat`. -/
def leadsWith : List Char → List Char → Bool
  | [], _ => true
  | _ :: _, [] => false
  | a :: xs, b :: ys => a == b && leadsWith xs ys

/-- case-insensitive `leadsWith` (for `re.IGNORECASE` literals). -/
def ciLeadsWith (pat l : List Char) : Bool :=
  leadsWith (toLowerList pat) (toLowerList (l.take pat.length))

/-- Python `sub in s` (substring test). -/
def containsSub : List Char → List Char → Bool
  | needle, [] => needle.isEmpty
  | needle, c :: rest => leadsWith needle (c :: rest) || containsSub needle rest

/-- maximal runs of characters satisfying `p` (used for `\b\w+\b`
tokenization and `str.split()`); `acc` is the reversed current run. -/
def runsByGo (p : Char → Bool) : List Char → List Char → List (List Char)
  | acc, [] => if acc.isEmpty then [] else [acc.reverse]
  | acc, c :: rest =>
    if p c then runsByGo p (c :: acc) rest
    else if acc.isEmpty then runsByGo p [] rest
    else acc.reverse :: runsByGo p [] rest

def runsBy (p : Char → Bool) (l : List Char) : List (List Char) :=
  runsByGo p [] l

/-- `re.findall(r'\b\w{3,}\b', l)`: maximal word-character runs of
length ≥ 3. -/
def wordTokens3 (l : List Char) : List (List Char) :=
  (runsBy isWordChar l).filter (fun w => decide (3 ≤ w.length))

/-- value of a decimal-digit string (the call sites only ever pass
strings matched by `\d+`, where Python `int` is plain base-10). -/
def digitsToNat (l : List Char) : ℕ :=
  l.foldl (fun n c => n * 10 + (c.toNat - '0'.toNat)) 0

/-- Python `str.isdigit()` (ASCII). -/
def isNatStr (l : List Char) : Bool :=
  !l.isEmpty && l.all Char.isDigit

/-! ## Schemas (`schemas/evaluation.py`, `schemas/chat.py`)

Pydantic float fields are modelled as `ℚ`; the
`evaluation_timestamp` field (`default_factory=datetime.utcnow`) is
modelled as an explicit clock value `ℤ` supplied by the caller's
run. -/

structure CitationAccuracy where
  total_citations : ℕ
  valid_citations : ℕ
  citation_accuracy : ℚ
  missing_sources : List String
  invalid_citations : List String
deriving DecidableEq, Repr

structure ContextRelevance where
  average_similarity : ℚ
  min_similarity : ℚ
  max_similarity : ℚ
  relevant_chunks : ℕ
  total_chunks : ℕ
deriving DecidableEq, Repr

structure AnswerFaithfulness where
  faithfulness_score : ℚ
  supported_claims : ℕ
  total_claims : ℕ
  unsupported_claims : List (List Char)
deriving DecidableEq, Repr

structure EvaluationMetrics where
  citation_accuracy : CitationAccuracy
  context_relevance : ContextRelevance
  answer_faithfulness : AnswerFaithfulness
  overall_score : ℚ
  evaluation_timestamp : ℤ
deriving DecidableEq, Repr

/-- a context chunk dict as the evaluators read it: `metadata`
(`source`, `page`), `similarity`, `distance`, `text`, `content`.
`Option` models an absent key (or a non-numeric value where the code
checks `isinstance(..., (int, float))`). -/
structure ChunkMeta where
  source : Option String
  page : Option ℤ
deriving DecidableEq, Repr

structure Chunk where
  metadata : Option ChunkMeta
  similarity : Option ℚ
  distance : Option ℚ
  text : Option String
  content : Option String
deriving DecidableEq, Repr

def metaOf (c : Chunk) : ChunkMeta :=
  c.metadata.getD ⟨none, none⟩

/-- `chunk.get('metadata', {}).get('source', 'Unknown')`. -/
def sourceOf (c : Chunk) : String :=
  (metaOf c).source.getD "Unknown"

/-! ## `evaluation.extract_citations` -/

structure AnswerCitation where
  source : String
  page : List Char
  full : List Char
deriving DecidableEq, Repr

/-- try to match `\[Source:\s*([^,]+),\s*Page:\s*(\d+|\?)\]`
(IGNORECASE) at the head of `l`; on success return the citation and
the remainder after the match.  `[^,]+` cannot cross the first comma,
and the Python `group(1).strip()` equals stripping all characters
before that comma, so the ungreedy `\s*`/`[^,]+` split needs no
backtracking in the model. -/
def tryAnswerCitation (l : List Char) : Option (AnswerCitation × List Char) :=
  match l with
  | '[' :: r =>
    if ciLeadsWith "Source:".toList r then
      let r1 := r.drop 7
      let body := r1.takeWhile (fun c => c ≠ ',')
      if !body.isEmpty then
        match r1.drop body.length with
        | ',' :: r3 =>
          let r4 := r3.dropWhile isPySpace
          if ciLeadsWith "Page:".toList r4 then
            let r5 := (r4.drop 5).dropWhile isPySpace
            match r5 with
            | '?' :: ']' :: r6 =>
              some (⟨String.mk (pyStrip body), ['?'],
                l.take (l.length - r6.length)⟩, r6)
            | c :: _ =>
              if c.isDigit then
                let ds := r5.takeWhile Char.isDigit
                match r5.drop ds.length with
                | ']' :: r6 =>
                  some (⟨String.mk (pyStrip body), ds,
                    l.take (l.length - r6.length)⟩, r6)
                | _ => none
              else none
            | [] => none
          else none
        | _ => none
      else none
    else none
  | _ => none

/-- `re.finditer` scan: non-overlapping matches left to right, moving
one character on failure.  `fuel` bounds the scan (initially the
text length; every step consumes at least one character). -/
def extractCitationsGo : ℕ → List Char → List AnswerCitation
  | 0, _ => []
  | _, [] => []
  | fuel + 1, c :: rest =>
    match tryAnswerCitation (c :: rest) with
    | some (cit, after) => cit :: extractCitationsGo fuel after
    | none => extractCitationsGo fuel rest

/-- `extract_citations(answer)` from `server/app/infra/evaluation.py`. -/
def extract_citations (answer : List Char) : List AnswerCitation :=
  extractCitationsGo answer.length answer

/-! ## `evaluation.get_available_sources` -/

/-- one step of the `sources` dict build: dict insertion order is
kept; page numbers are stored as `str(page).strip()` in a set
(duplicate-free list). -/
def insertAvail : List (String × List String) → String → Option ℤ → List (String × List String)
  | [], src, pg => [(src, match pg with | some p => [toString p] | none => [])]
  | (s, ps) :: rest, src, pg =>
    if s = src then
      (s, match pg with
          | some p => if toString p ∈ ps then ps else ps ++ [toString p]
          | none => ps) :: rest
    else (s, ps) :: insertAvail rest src pg

/-- `get_available_sources(context_chunks)`. -/
def get_available_sources (chunks : List Chunk) : List (String × List String) :=
  chunks.foldl (fun m c => insertAvail m (sourceOf c) (metaOf c).page) []

def lookupAvail (m : List (String × List String)) (s : String) : Option (List String) :=
  (m.find? (fun pr => pr.1 == s)).map Prod.snd

/-! ## `evaluation.evaluate_citation_accuracy` -/

/-- try to match the anchored suffix `\s*\(Page\s+(\d+|\?)\)$`
(case-sensitive) against `l`; returns the page token. -/
def matchPageSuffix (l : List Char) : Option (List Char) :=
  match l.dropWhile isPySpace with
  | '(' :: r1 =>
    if leadsWith "Page".toList r1 then
      let r2 := r1.drop 4
      let ws := r2.takeWhile isPySpace
      if !ws.isEmpty then
        match r2.drop ws.length with
        | '?' :: ')' :: [] => some ['?']
        | c :: r3 =>
          if c.isDigit then
            let ds := r3.takeWhile Char.isDigit
            match r3.drop ds.length with
            | [')'] => some (c :: ds)
            | _ => none
          else none
        | [] => none
      else none
    else none
  | _ => none

/-- lazy search for the `(.+?)` split of
`^(.+?)\s*\(Page\s+(\d+|\?)\)$`: the shortest non-empty prefix whose
remainder matches the suffix pattern wins; `.` does not match a
newline, so a newline entering the prefix kills every longer split.
Returns `(prefix, page token)`. -/
def findPageSplit : ℕ → List Char → List Char → Option (List Char × List Char)
  | _, _, [] => none
  | 0, _, _ => none
  | fuel + 1, preRev, rest =>
    match matchPageSuffix rest with
    | some tok => some (preRev.reverse, tok)
    | none =>
      match rest with
      | c :: r => if c == '\n' then none else findPageSplit fuel (c :: preRev) r
      | [] => none

/-- parse one provided source string:
`re.match(r'^(.+?)\s*\(Page\s+(\d+|\?)\)$', source_str.strip())`,
falling back to the bare stripped string. -/
def parseProvidedSource (s : String) : String × Option (List Char) :=
  let t := pyStrip s.toList
  match t with
  | [] => (String.mk t, none)
  | c :: rest =>
    if c = '\n' then (String.mk t, none)
    else
      match findPageSplit (rest.length + 1) [c] rest with
      | some (pre, tok) => (String.mk (pyStrip pre), some tok)
      | none => (String.mk t, none)

/-- page-token test of the provided-sources path: string membership
first, then the integer comparison against the digit-only pages
(`int(page_str)`; the token here is always a `\d+` match). -/
def citePageMatches (pages : List String) (p : List Char) : Bool :=
  String.mk p ∈ pages
    || (isNatStr p
        && pages.any (fun q => isNatStr q.toList && digitsToNat q.toList == digitsToNat p))

/-- validity of one parsed `(source_name, page)` pair in the
provided-sources path (lines 98-143 of `evaluation.py`); a pair is
recorded in `invalid_citations` exactly when it is not valid. -/
def providedPairValid (avail : List (String × List String)) (name : String)
    (page : Option (List Char)) : Bool :=
  match lookupAvail avail name with
  | none => false
  | some pages =>
    match page with
    | none => true
    | some p =>
      if p = ['?'] then true
      else if pages.isEmpty then true
      else citePageMatches pages p

/-- validity of one citation extracted from the answer text
(fallback path, lines 165-178): no integer comparison here. -/
def answerCiteValid (avail : List (String × List String)) (cit : AnswerCitation) : Bool :=
  match lookupAvail avail cit.source with
  | none => false
  | some pages =>
    (cit.page = ['?'] || pages.isEmpty) || String.mk cit.page ∈ pages

/-- `evaluate_citation_accuracy(answer, context_chunks,
provided_sources)`.  `provided_sources = none` is Python `None`; the
`if provided_sources:` truthiness test makes `none` and `some []`
equal.  `missing_sources` is a Python set difference, modelled as the
insertion-ordered available sources filtered by the provided names
(equal as sets). -/
def evaluate_citation_accuracy (answer : List Char) (chunks : List Chunk)
    (provided_sources : Option (List String)) : CitationAccuracy :=
  let avail := get_available_sources chunks
  let context_sources := avail.map Prod.fst
  let citations := extract_citations answer
  let ps := provided_sources.getD []
  if !ps.isEmpty then
    let pairs := ps.map (fun s => (parseProvidedSource s, s))
    let valid := pairs.countP (fun pr => providedPairValid avail pr.1.1 pr.1.2)
    let invalid := (pairs.filter
      (fun pr => !providedPairValid avail pr.1.1 pr.1.2)).map Prod.snd
    let names := pairs.map (fun pr => pr.1.1)
    let missing := context_sources.filter (fun s => !names.contains s)
    ⟨ps.length, valid,
      if 0 < ps.length then (valid : ℚ) / (ps.length : ℚ) else 0,
      missing, invalid⟩
  else if !citations.isEmpty then
    let valid := citations.countP (fun c => answerCiteValid avail c)
    let invalid := (citations.filter (fun c => !answerCiteValid avail c)).map
      (fun c => String.mk c.full)
    let cited := citations.map AnswerCitation.source
    let missing := context_sources.filter (fun s => !cited.contains s)
    ⟨citations.length, valid,
      if 0 < citations.length then (valid : ℚ) / (citations.length : ℚ) else 0,
      missing, invalid⟩
  else
    ⟨0, 0, 0, context_sources, []⟩

/-! ## `evaluation.evaluate_context_relevance` -/

/-- the similarity each chunk contributes: a numeric `similarity` as
is, else `max(0.0, 1.0 - distance)` from a numeric `distance`, else
nothing. -/
def chunkSimilarityVal (c : Chunk) : Option ℚ :=
  match c.similarity with
  | some s => some s
  | none =>
    match c.distance with
    | some d => some (max 0 (1 - d))
    | none => none

/-- `evaluate_context_relevance(context_chunks, query,
similarity_threshold)` (the query is unused by the code). -/
def evaluate_context_relevance (chunks : List Chunk) (query : String)
    (similarity_threshold : ℚ) : ContextRelevance :=
  if chunks.isEmpty then ⟨0, 0, 0, 0, 0⟩
  else
    match chunks.filterMap chunkSimilarityVal with
    | [] => ⟨0, 0, 0, 0, chunks.length⟩
    | s :: rest =>
      let sims := s :: rest
      let avg := sims.sum / (sims.length : ℚ)
      ⟨pyRound3 avg, pyRound3 (rest.foldl min s), pyRound3 (rest.foldl max s),
        sims.countP (fun x => decide (similarity_threshold ≤ x)), chunks.length⟩

/-! ## `evaluation.extract_claims` -/

/-- try to match `\[Source:[^\]]+\]` (case-sensitive) at the head;
returns the remainder after the match. -/
def tryCitationBracket (l : List Char) : Option (List Char) :=
  match l with
  | '[' :: r =>
    if leadsWith "Source:".toList r then
      let r1 := r.drop 7
      let body := r1.takeWhile (fun c => c ≠ ']')
      if !body.isEmpty then
        match r1.drop body.length with
        | ']' :: r2 => some r2
        | _ => none
      else none
    else none
  | _ => none

/-- `re.sub(r'\[Source:[^\]]+\]', '', answer)`. -/
def removeCitationsGo : ℕ → List Char → List Char
  | 0, l => l
  | _, [] => []
  | fuel + 1, c :: rest =>
    match tryCitationBracket (c :: rest) with
    | some after => removeCitationsGo fuel after
    | none => c :: removeCitationsGo fuel rest

/-- `re.split(r'[.!?]+', s)`: maximal delimiter runs split the string;
empty pieces survive only at the ends. -/
def splitSentencesGo : ℕ → List Char → List Char → List (List Char)
  | _, acc, [] => [acc.reverse]
  | 0, acc, _ => [acc.reverse]
  | fuel + 1, acc, c :: rest =>
    if c == '.' || c == '!' || c == '?' then
      acc.reverse :: splitSentencesGo fuel []
        (rest.dropWhile (fun d => d == '.' || d == '!' || d == '?'))
    else splitSentencesGo fuel (c :: acc) rest

/-- the lead phrases stripped by
`re.sub(r'^(According to|Based on|The document|It|This)', '', s,
flags=IGNORECASE)`, in the regex's alternation order (the anchored
pattern fires at most once; there is no word boundary, so e.g.
`According to` matches by prefix only). -/
def claimLeads : List (List Char) :=
  ["According to", "Based on", "The document", "It", "This"].map String.toList

def dropClaimLead (l : List Char) : List Char :=
  match claimLeads.find? (fun p => ciLeadsWith p l) with
  | some p => l.drop p.length
  | none => l

def endsWithQm (l : List Char) : Bool :=
  match l.reverse with
  | '?' :: _ => true
  | [] => false
  | _ :: _ => false

/-- `extract_claims(answer)`. -/
def extract_claims (answer : List Char) : List (List Char) :=
  let cleaned := removeCitationsGo answer.length answer
  let sentences := splitSentencesGo cleaned.length [] cleaned
  sentences.filterMap (fun s0 =>
    let s := pyStrip s0
    if 20 < s.length ∧ ¬ endsWithQm s = true ∧ s ≠ [] then
      let s2 := pyStrip (dropClaimLead s)
      if 20 < s2.length then some s2 else none
    else none)

/-! ## `evaluation.check_claim_support` -/

def stopWords : List (List Char) :=
  ["the", "a", "an", "and", "or", "but", "in", "on", "at", "to", "for", "of",
   "with", "by", "from", "is", "was", "are", "were", "be", "been", "have",
   "has", "had", "do", "does", "did", "will", "would", "could", "should",
   "may", "might", "must", "can"].map String.toList

/-- the distinct meaningful words of a lowercased text:
`\b\w{3,}\b` tokens as a set, minus stop words (the redundant
`len(w) > 2` re-check is kept). -/
def meaningfulWords (l : List Char) : List (List Char) :=
  (wordTokens3 l).dedup.filter
    (fun w => !stopWords.contains w && decide (2 < w.length))

/-- Python `a or b or ''` over the `text`/`content` values. -/
def orElseStr (a b : Option String) : String :=
  match a with
  | some s => if s ≠ "" then s else (b.getD "")
  | none => b.getD ""

def chunkTextLower (ch : Chunk) : List Char :=
  toLowerList (orElseStr ch.text ch.content).toList

/-- the 3-token windows of `claim_lower.split()` joined by single
spaces. -/
def threeTokenJoins : List (List Char) → List (List Char)
  | t1 :: t2 :: t3 :: rest =>
    (t1 ++ ' ' :: t2 ++ ' ' :: t3) :: threeTokenJoins (t2 :: t3 :: rest)
  | _ => []

/-- `claim_phrases`: the 3-word windows longer than 10 characters. -/
def claimPhrases (claim_lower : List Char) : List (List Char) :=
  (threeTokenJoins (runsBy (fun c => !isPySpace c) claim_lower)).filter
    (fun p => decide (10 < p.length))

/-- whether the rest of the text starts at a word boundary (end of
string or a non-word character). -/
def atBoundary (rest : List Char) : Bool :=
  match rest with
  | [] => true
  | c :: _ => !isWordChar c

/-- `\b\d+\b` at the head (given the previous character is non-word):
a maximal digit run that ends at a word boundary. -/
def tryNumTerm (l : List Char) : Option (List Char × List Char) :=
  match l with
  | c :: r1 =>
    if c.isDigit then
      let ds := r1.takeWhile Char.isDigit
      let after := r1.drop ds.length
      if atBoundary after then some (c :: ds, after) else none
    else none
  | [] => none

/-- the `(?:\s+[A-Z][a-z]+)*\b` continuation of a capitalized-word
sequence: greedily extend, then settle on the longest end position
with a word boundary.  `consumedRev` holds the matched characters
reversed. -/
def capSeqGo : ℕ → List Char → List Char → Option (List Char × List Char)
  | 0, consumedRev, rest =>
    if atBoundary rest then some (consumedRev.reverse, rest) else none
  | fuel + 1, consumedRev, rest =>
    let ws := rest.takeWhile isPySpace
    let ext :=
      if ws.isEmpty then none
      else
        match rest.drop ws.length with
        | c :: r1 =>
          if isUpperAZ c then
            let lows := r1.takeWhile isLowerAZ
            if lows.isEmpty then none
            else capSeqGo fuel
              (lows.reverse ++ c :: ws.reverse ++ consumedRev)
              (r1.drop lows.length)
          else none
        | [] => none
    match ext with
    | some res => some res
    | none =>
      if atBoundary rest then some (consumedRev.reverse, rest) else none

/-- `\b[A-Z][a-z]+(?:\s+[A-Z][a-z]+)*\b` at the head (previous
character non-word). -/
def tryCapTerm (l : List Char) : Option (List Char × List Char) :=
  match l with
  | c :: r1 =>
    if isUpperAZ c then
      let lows := r1.takeWhile isLowerAZ
      if lows.isEmpty then none
      else capSeqGo r1.length (lows.reverse ++ [c]) (r1.drop lows.length)
    else none
  | [] => none

/-- `re.findall(r'\b\d+\b|\b[A-Z][a-z]+(?:\s+[A-Z][a-z]+)*\b', claim)`:
left-to-right non-overlapping scan; `prevWord` tracks whether the
previous character was a word character (for `\b`). -/
def importantTermsGo : ℕ → Bool → List Char → List (List Char)
  | 0, _, _ => []
  | _, _, [] => []
  | fuel + 1, prevWord, c :: rest =>
    if prevWord then importantTermsGo fuel (isWordChar c) rest
    else
      match tryNumTerm (c :: rest) with
      | some (t, after) => t :: importantTermsGo fuel true after
      | none =>
        match tryCapTerm (c :: rest) with
        | some (t, after) => t :: importantTermsGo fuel true after
        | none => importantTermsGo fuel (isWordChar c) rest

def importantTerms (claim : List Char) : List (List Char) :=
  importantTermsGo claim.length false claim

/-- the per-chunk body of `check_claim_support`'s loop (a `continue`
on empty chunk text, then the phrase / overlap / named-entity
tests in the code's order). -/
def supportedByChunk (claim : List Char) (claim_lower : List Char)
    (claim_words : List (List Char)) (ch : Chunk) : Bool :=
  let ct := chunkTextLower ch
  if ct.isEmpty then false
  else
    let chunk_words := meaningfulWords ct
    let overlap := (claim_words.filter (fun w => chunk_words.contains w)).length
    let overlapOk :=
      decide ((2 : ℚ) / 5 ≤
        (if claim_words.isEmpty then 0
         else (overlap : ℚ) / (claim_words.length : ℚ)))
    let phrases := claimPhrases claim_lower
    let phraseOk := !phrases.isEmpty && phrases.any (fun p => containsSub p ct)
    let terms := importantTerms claim
    let termsOk := !terms.isEmpty && terms.any (fun t => containsSub (toLowerList t) ct)
    phraseOk || overlapOk || termsOk

/-- `check_claim_support(claim, context_chunks)`. -/
def check_claim_support (claim : List Char) (chunks : List Chunk) : Bool :=
  if claim.isEmpty || decide ((pyStrip claim).length < 10) then false
  else
    let claim_lower := pyStrip (toLowerList claim)
    let claim_words := meaningfulWords claim_lower
    if claim_words.isEmpty then false
    else chunks.any (supportedByChunk claim claim_lower claim_words)

/-! ## `evaluation.evaluate_answer_faithfulness` -/

def evaluate_answer_faithfulness (answer : List Char) (chunks : List Chunk) :
    AnswerFaithfulness :=
  let claims := extract_claims answer
  if claims.isEmpty then ⟨0, 0, 0, []⟩
  else
    let supported := claims.filter (fun c => check_claim_support c chunks)
    let unsupported := claims.filter (fun c => !check_claim_support c chunks)
    ⟨if 0 < claims.length then (supported.length : ℚ) / (claims.length : ℚ) else 0,
      supported.length, claims.length, unsupported.take 5⟩

/-! ## `evaluation.compute_overall_score` and the service -/

/-- `compute_overall_score` with the default weights
`{citation: 0.3, relevance: 0.2, faithfulness: 0.5}`. -/
def compute_overall_score (ca : CitationAccuracy) (cr : ContextRelevance)
    (af : AnswerFaithfulness) : ℚ :=
  pyRound3 (ca.citation_accuracy * (3 / 10)
    + cr.average_similarity * (1 / 5)
    + af.faithfulness_score * (1 / 2))

/-- `EvaluationService.evaluate` up to the `EvaluationMetrics` value:
the three scorers on the same inputs, the overall score, and the
`evaluation_timestamp` (whose `datetime.utcnow` default factory is
the explicit clock argument `now`). -/
def EvaluationService_evaluate (now : ℤ) (query : String) (answer : List Char)
    (context_chunks : List Chunk) (sources : Option (List String)) :
    EvaluationMetrics :=
  let ca := evaluate_citation_accuracy answer context_chunks sources
  let cr := evaluate_context_relevance context_chunks query (1 / 2)
  let af := evaluate_answer_faithfulness answer context_chunks
  ⟨ca, cr, af, compute_overall_score ca cr af, now⟩

/-- the metrics with the run-dependent timestamp projected away. -/
def metricsSansTimestamp (m : EvaluationMetrics) :
    CitationAccuracy × ContextRelevance × AnswerFaithfulness × ℚ :=
  (m.citation_accuracy, m.context_relevance, m.answer_faithfulness, m.overall_score)

/-! ## `rag_engine.rag_pipeline` sources and `chat.py` records -/

/-- duplicate removal keeping first occurrences (the model's fixed
order for Python's `list(set)`, whose iteration order is
implementation-defined; order-independent statements are used where
it matters). -/
def dedupFirstGo : List String → List String → List String
  | _, [] => []
  | seen, s :: rest =>
    if seen.contains s then dedupFirstGo seen rest
    else s :: dedupFirstGo (s :: seen) rest

/-- `rag_pipeline`'s source attribution:
`list({chunk.get("metadata", {}).get("source", "unknown") for chunk in
context_chunks})` — source names only, pages discarded. -/
def rag_pipeline_sources (chunks : List Chunk) : List String :=
  dedupFirstGo [] (chunks.map (fun c => (metaOf c).source.getD "unknown"))

structure SourceInfo where
  source : String
  page : Option ℤ
  display_text : String
  url : String
deriving DecidableEq, Repr

def hexDigitUpper (n : ℕ) : Char :=
  if n < 10 then Char.ofNat ('0'.toNat + n) else Char.ofNat ('A'.toNat + (n - 10))

/-- `urllib.parse.quote(s, safe='')` for ASCII text: every character
outside `[A-Za-z0-9_.~-]` becomes `%XX`. -/
def urlQuote (s : String) : String :=
  String.mk ((s.toList.map (fun c =>
    if c.isAlphanum || c == '_' || c == '.' || c == '-' || c == '~' then [c]
    else ['%', hexDigitUpper (c.toNat / 16 % 16), hexDigitUpper (c.toNat % 16)])).flatten)

/-- the string branch of `chat.py`'s source loop (this `rag_pipeline`
returns bare strings): `SourceInfo(source=s, page=None,
display_text=s, url=f"{api_base_url}/documents/view/{quote(s)}")`. -/
def chat_source_infos (api_base_url : String) (sources : List String) :
    List SourceInfo :=
  sources.map (fun s =>
    ⟨s, none, s, api_base_url ++ "/documents/view/" ++ urlQuote s⟩)

/-! ## `document_loader.validate_file_upload` -/

/-- `pathlib.PurePath(filename).suffix`: from the last `.` of the
final path component, unless it is first or last in that name. -/
def pathSuffix (s : String) : String :=
  let name := (s.toList.reverse.takeWhile (fun c => c ≠ '/')).reverse
  let tail := name.reverse.takeWhile (fun c => c ≠ '.')
  if tail.length = name.length then ""
  else
    let i := name.length - tail.length - 1
    if 0 < i ∧ i < name.length - 1 then String.mk (name.drop i) else ""

/-- `validate_file_upload(filename, file_size, max_size_mb)`; the
allowed-extension set's error message is modelled in the set's
insertion order (CPython set iteration order is unspecified). -/
def validate_file_upload (filename : Option String) (file_size : ℤ)
    (max_size_mb : ℤ) : Bool × Option String :=
  match filename with
  | none => (false, some "Filename is required")
  | some fn =>
    if fn = "" then (false, some "Filename is required")
    else
      let ext := String.mk (toLowerList (pathSuffix fn).toList)
      if !([".txt", ".pdf", ".docx", ".md"].contains ext) then
        (false, some "File type not supported. Allowed types: .txt, .pdf, .docx, .md")
      else if max_size_mb * 1024 * 1024 * 1024 < file_size then
        (false, some ("File size exceeds maximum allowed size of "
          ++ toString max_size_mb ++ "MB"))
      else if file_size = 0 then (false, some "File is empty")
      else (true, none)

/-- Modelled from the spec's wording of claim C5's validity rule (for
comparison with `providedPairValid`): "a provided entry is valid iff
its parsed source is in the available map AND (its page token is
`\"?\"`, OR that source has no known pages, OR the page token matches a
known page as string or as integer)" — note no case for an entry with
no page token at all. -/
def specC5PairValid (avail : List (String × List String)) (name : String)
    (page : Option (List Char)) : Prop :=
  ∃ pages, lookupAvail avail name = some pages ∧
    (page = some ['?'] ∨ pages = [] ∨
      ∃ p, page = some p ∧
        (String.mk p ∈ pages ∨
          (isNatStr p = true ∧ ∃ q ∈ pages, isNatStr q.toList = true
            ∧ digitsToNat q.toList = digitsToNat p)))

/-- Modelled from the spec's wording of claim C7's support rule (for
comparison with `check_claim_support`): a claim is supported iff some
single passage satisfies (a) a 3-word phrase of the claim appears
verbatim in the passage text, or (b) the fraction of the claim's
distinct meaningful words also occurring in the passage is ≥ 0.4, or
(c) a capitalized *multi-word* term or standalone number from the
claim appears in the passage — with no length filter on phrases and
no guard conditions. -/
def claimC7Supported (claim : List Char) (chunks : List Chunk) : Prop :=
  ∃ ch ∈ chunks,
    ((∃ p ∈ threeTokenJoins (runsBy (fun c => !isPySpace c) (pyStrip (toLowerList claim))),
        containsSub p (chunkTextLower ch) = true)
     ∨ (2 : ℚ) / 5 ≤
         (((meaningfulWords (pyStrip (toLowerList claim))).filter
             (fun w => (meaningfulWords (chunkTextLower ch)).contains w)).length : ℚ)
           / ((meaningfulWords (pyStrip (toLowerList claim))).length : ℚ)
     ∨ (∃ t ∈ importantTerms claim, (t.any isPySpace = true ∨ isNatStr t = true)
         ∧ containsSub (toLowerList t) (chunkTextLower ch) = true))

/-- the similarity inputs of a chunk are well-formed: a numeric
`similarity` lies in [0,1] and a numeric `distance` is nonnegative
(claim C1's amended hypothesis; the code clamps `1 - distance` below
at 0 but nothing above). -/
def chunkSimilarityBounded (c : Chunk) : Prop :=
  (∀ s, c.similarity = some s → 0 ≤ s ∧ s ≤ 1)
  ∧ (∀ d, c.distance = some d → 0 ≤ d)

/-- the claim C1 property of a metrics value: the overall score is
the fixed convex combination of the three sub-scores (rounded to 3
decimals) and each sub-score and the overall score lie in [0,1]. -/
def metricsWithinBounds (m : EvaluationMetrics) : Prop :=
  m.overall_score = pyRound3 (m.citation_accuracy.citation_accuracy * (3 / 10)
      + m.context_relevance.average_similarity * (1 / 5)
      + m.answer_faithfulness.faithfulness_score * (1 / 2))
  ∧ (0 ≤ m.citation_accuracy.citation_accuracy ∧ m.citation_accuracy.citation_accuracy ≤ 1)
  ∧ (0 ≤ m.context_relevance.average_similarity ∧ m.context_relevance.average_similarity ≤ 1)
  ∧ (0 ≤ m.answer_faithfulness.faithfulness_score ∧ m.answer_faithfulness.faithfulness_score ≤ 1)
  ∧ (0 ≤ m.overall_score ∧ m.overall_score ≤ 1)

-- ===================== THEOREMS =====================

theorem chunkStep_pos (cs ov : ℕ) : 0 < chunkStep cs ov :=
  lt_of_lt_of_le one_pos (le_max_right _ _)

theorem chunkStep_le (cs ov : ℕ) (h : 1 ≤ cs) : chunkStep cs ov ≤ cs :=
  max_le (Nat.sub_le _ _) h

theorem splitChunksGo_eq (cs step : ℕ) (hstep : 0 < step) :
    ∀ (fuel : ℕ) (rest : List Char), rest.length ≤ fuel →
      splitChunksGo cs step fuel rest =
        (List.range ((rest.length + step - 1) / step)).map
          (fun k => (rest.drop (k * step)).take cs) := by
  intro fuel
  induction fuel with
  | zero =>
    intro rest hrest
    have : rest = [] := List.eq_nil_of_length_eq_zero (Nat.le_zero.mp hrest)
    subst this
    have h0 : (([] : List Char).length + step - 1) / step = 0 :=
      Nat.div_eq_of_lt (by simp; omega)
    rw [h0]
    simp [splitChunksGo]
  | succ n ih =>
    intro rest hrest
    match rest with
    | [] =>
      have h0 : (([] : List Char).length + step - 1) / step = 0 :=
        Nat.div_eq_of_lt (by simp; omega)
      rw [h0]
      simp [splitChunksGo]
    | c :: rs =>
      have hlen : (c :: rs).length = rs.length + 1 := rfl
      have hdrop : ((c :: rs).drop step).length = rs.length + 1 - step := by
        simp [List.length_drop]
      have hfuel : ((c :: rs).drop step).length ≤ n := by
        rw [hdrop]
        omega
      have hrec := ih ((c :: rs).drop step) hfuel
      show (c :: rs).take cs :: splitChunksGo cs step n ((c :: rs).drop step) = _
      rw [hrec, hdrop]
      have hcount : ((rs.length + 1) + step - 1) / step
          = ((rs.length + 1 - step) + step - 1) / step + 1 := by
        rcases Nat.lt_or_ge rs.length step with hlt | hge
        · have h1 : rs.length + 1 - step = 0 := by omega
          have h2 : (rs.length + 1 + step - 1) / step = 1 := by
            apply Nat.div_eq_of_lt_le
            · omega
            · omega
          have h3 : (0 + step - 1) / step = 0 := Nat.div_eq_of_lt (by omega)
          rw [h1, h2, h3]
        · have e1 : rs.length + 1 - step + step - 1 = (rs.length - step) + step := by
            omega
          have e2 : rs.length + 1 + step - 1 = ((rs.length - step) + step) + step := by
            omega
          rw [e1, e2, Nat.add_div_right _ hstep, Nat.add_div_right _ hstep]
      rw [hlen, hcount, List.range_succ_eq_map, List.map_cons]
      congr 1
      · simp
      · rw [List.map_map]
        apply List.map_congr_left
        intro k _
        show (((c :: rs).drop step).drop (k * step)).take cs
            = ((c :: rs).drop ((k + 1) * step)).take cs
        rw [List.drop_drop]
        congr 2
        ring

theorem split_text_into_chunks_eq (text : List Char) (cs ov : ℕ) :
    split_text_into_chunks text cs ov =
      (List.range ((text.length + chunkStep cs ov - 1) / chunkStep cs ov)).map
        (fun k => (text.drop (k * chunkStep cs ov)).take cs) :=
  splitChunksGo_eq cs (chunkStep cs ov) (chunkStep_pos cs ov) text.length text le_rfl

/-- Claim C2: for every text, chunk size ≥ 1 and overlap (including
overlap ≥ chunk size), `split_text_into_chunks` terminates producing
exactly `⌈len(text) / step⌉` chunks where `step = max(chunk_size -
overlap, 1)`; the k-th chunk is the slice starting at index `k·step`
of length at most `chunk_size`; every chunk has length ≤ `chunk_size`;
and every character index of the text is covered by some chunk's
character range. -/
theorem C2_split_text_into_chunks_spec (text : List Char) (cs ov step : ℕ)
    (hcs : 1 ≤ cs) (hstep : step = chunkStep cs ov) :
    (split_text_into_chunks text cs ov).length = (text.length + step - 1) / step
    ∧ (∀ k, (split_text_into_chunks text cs ov)[k]? =
        if k < (text.length + step - 1) / step
        then some ((text.drop (k * step)).take cs) else none)
    ∧ (∀ c ∈ split_text_into_chunks text cs ov, c.length ≤ cs)
    ∧ (∀ i < text.length, ∃ k < (split_text_into_chunks text cs ov).length,
        k * step ≤ i ∧ i < k * step + cs) := by
  subst hstep
  rw [split_text_into_chunks_eq]
  have hpos : 0 < chunkStep cs ov := chunkStep_pos cs ov
  have hle : chunkStep cs ov ≤ cs := chunkStep_le cs ov hcs
  set s := chunkStep cs ov with hs
  refine ⟨by simp, ?_, ?_, ?_⟩
  · intro k
    by_cases hk : k < (text.length + s - 1) / s
    · rw [if_pos hk, List.getElem?_map, List.getElem?_range hk]
      rfl
    · rw [if_neg hk, List.getElem?_eq_none]
      simpa using hk
  · intro c hc
    rw [List.mem_map] at hc
    obtain ⟨k, _, hck⟩ := hc
    rw [← hck, List.length_take]
    exact min_le_left _ _
  · intro i hi
    refine ⟨i / s, ?_, ?_, ?_⟩
    · rw [List.length_map, List.length_range]
      have h1 : i / s ≤ (text.length - 1) / s :=
        Nat.div_le_div_right (by omega)
      have h2 : (text.length + s - 1) / s = (text.length - 1) / s + 1 := by
        have : text.length + s - 1 = (text.length - 1) + s := by omega
        rw [this, Nat.add_div_right _ hpos]
      omega
    · rw [Nat.mul_comm]
      exact Nat.mul_div_le i s
    · have hmod := Nat.div_add_mod i s
      have hlt : i % s < s := Nat.mod_lt _ hpos
      have : i / s * s = s * (i / s) := Nat.mul_comm _ _
      rw [this]
      omega

/-- Witness for C2 at a concrete input: text of length 7,
chunk size 3, overlap 5 (overlap ≥ chunk size), so step = 1 and the
chunk count is ⌈7/1⌉ = 7. -/
theorem C2_split_text_into_chunks_spec_witness :
    (1 ≤ 3 ∧ chunkStep 3 5 = 1) ∧
      (split_text_into_chunks "abcdefg".toList 3 5).length = (7 + 1 - 1) / 1 :=
  ⟨⟨by norm_num, by decide⟩,
    (C2_split_text_into_chunks_spec "abcdefg".toList 3 5 1 (by norm_num)
      (by decide)).1⟩

theorem pyRound_intCast (n : ℤ) : pyRound ((n : ℤ) : ℚ) = n := by
  unfold pyRound
  rw [Int.floor_intCast]
  norm_num

theorem applyOffsetAt_getElem (off : ℤ) :
    ∀ (l : List ℤ) (i k : ℕ),
      (applyOffsetAt off i l)[k]? = l[k]?.map (fun p =>
        if p = ((i + k : ℕ) : ℤ) + 1
        then (if p + off > 0 then p + off else p) else p) := by
  intro l
  induction l with
  | nil => intro i k; simp [applyOffsetAt]
  | cons p rest ih =>
    intro i k
    match k with
    | 0 => simp [applyOffsetAt]
    | k + 1 =>
      have hunfold : applyOffsetAt off i (p :: rest)
          = (if p = (i : ℤ) + 1 then (if p + off > 0 then p + off else p) else p)
            :: applyOffsetAt off (i + 1) rest := rfl
      rw [hunfold, List.getElem?_cons_succ, List.getElem?_cons_succ, ih (i + 1) k]
      have e : i + 1 + k = i + (k + 1) := by omega
      rw [e]

/-- Claim C3 (counterexample): with two text-bearing pages whose
numbers are both directly extracted as 1 and 4 (mean offset
(0 + 2)/2 = 1, inside the window), the first page's directly
extracted number 1 coincides with its physical position 1 and is
therefore overridden to 2 by the offset pass — refuting "pages with a
directly extracted number are never overridden". -/
theorem C3_counterexample :
    (buildPageTexts 0 [⟨true, some 1⟩, ⟨true, some 4⟩]).2 = [(0, 1), (1, 4)]
    ∧ extract_text_from_pdf_pages [⟨true, some 1⟩, ⟨true, some 4⟩] = [2, 4]
    ∧ (extract_text_from_pdf_pages [⟨true, some 1⟩, ⟨true, some 4⟩])[0]? ≠ some 1 := by
  have havg : avgOffset [(0, 1), (1, 4)] = 1 := by
    norm_num [avgOffset]
    all_goals decide
  have hbuild : buildPageTexts 0 [⟨true, some 1⟩, ⟨true, some 4⟩]
      = ([1, 4], [(0, 1), (1, 4)]) := by decide
  have hmain : extract_text_from_pdf_pages [⟨true, some 1⟩, ⟨true, some 4⟩] = [2, 4] := by
    unfold extract_text_from_pdf_pages
    rw [hbuild]
    rw [if_pos (by decide)]
    rw [havg]
    rw [if_pos ⟨by norm_num, by norm_num⟩]
    rw [show pyRound ((1 : ℚ)) = 1 from by
      rw [show ((1 : ℚ)) = ((1 : ℤ) : ℚ) from by norm_num, pyRound_intCast]]
    decide
  refine ⟨by rw [hbuild], hmain, by rw [hmain]; decide⟩

/-- Claim C3 (amended): the offset pass fires iff some page number was
directly extracted and the mean offset has magnitude strictly between
1/2 and 20; it then rewrites each entry of the surviving `page_texts`
list pointwise — an entry at 0-based position `k` is shifted by the
rounded mean iff it equals `k + 1` (its 1-based *position in that
list*, which is the physical index only when no blank page was
skipped) and the shifted value is positive.  Entries whose stored
number differs from `k + 1` are untouched, but a directly extracted
number that happens to equal `k + 1` is shifted like a fallback. -/
theorem C3_offset_pass_characterization (pages : List PageIn)
    (pt : List ℤ) (epn : List (ℕ × ℤ))
    (hb : buildPageTexts 0 pages = (pt, epn)) :
    (¬ (epn ≠ [] ∧ 1 / 2 < |avgOffset epn| ∧ |avgOffset epn| < 20) →
      extract_text_from_pdf_pages pages = pt)
    ∧ ((epn ≠ [] ∧ 1 / 2 < |avgOffset epn| ∧ |avgOffset epn| < 20) →
      ∀ k : ℕ, (extract_text_from_pdf_pages pages)[k]? = pt[k]?.map (fun p =>
        if p = (k : ℤ) + 1
        then (if p + pyRound (avgOffset epn) > 0
              then p + pyRound (avgOffset epn) else p)
        else p)) := by
  constructor
  · intro h
    unfold extract_text_from_pdf_pages
    rw [hb]
    by_cases h1 : epn ≠ []
    · rw [if_pos h1, if_neg (fun h2 => h ⟨h1, h2⟩)]
    · rw [if_neg h1]
  · rintro ⟨h1, h2⟩ k
    unfold extract_text_from_pdf_pages
    rw [hb]
    rw [if_pos h1, if_pos h2, applyOffsetAt_getElem]
    simp

/-- Witness for C3 (amended): pages extracting 10 and nothing; mean
offset 9 is in the window, and position 2's fallback entry 2 becomes
11. -/
theorem C3_offset_pass_characterization_witness :
    (([(0, 10)] : List (ℕ × ℤ)) ≠ [] ∧ 1 / 2 < |avgOffset [(0, 10)]|
      ∧ |avgOffset [(0, 10)]| < 20)
    ∧ (extract_text_from_pdf_pages [⟨true, some 10⟩, ⟨true, none⟩])[1]? = some 11 := by
  have havg : avgOffset [(0, 10)] = 9 := by
    norm_num [avgOffset]
  have hcond : (([(0, 10)] : List (ℕ × ℤ)) ≠ [] ∧ 1 / 2 < |avgOffset [(0, 10)]|
      ∧ |avgOffset [(0, 10)]| < 20) := by
    rw [havg]
    exact ⟨by decide, by norm_num, by norm_num⟩
  refine ⟨hcond, ?_⟩
  have h := (C3_offset_pass_characterization [⟨true, some 10⟩, ⟨true, none⟩]
    [10, 2] [(0, 10)] (by decide)).2 hcond 1
  rw [h, havg]
  rw [show pyRound ((9 : ℚ)) = 9 from by
    rw [show ((9 : ℚ)) = ((9 : ℤ) : ℚ) from by norm_num, pyRound_intCast]]
  decide

/-- Claim C4 (counterexample): three text-bearing pages extracting
188, nothing, 190 give mean offset 187, which is outside the strict
(1/2, 20) window, so the middle page keeps its fallback 2 — the
output is [188, 2, 190], not [188, 189, 190]. -/
theorem C4_counterexample :
    extract_text_from_pdf_pages [⟨true, some 188⟩, ⟨true, none⟩, ⟨true, some 190⟩]
      = [188, 2, 190]
    ∧ extract_text_from_pdf_pages [⟨true, some 188⟩, ⟨true, none⟩, ⟨true, some 190⟩]
      ≠ [188, 189, 190] := by
  have havg : avgOffset [(0, 188), (2, 190)] = 187 := by
    norm_num [avgOffset]
    all_goals decide
  have hmain : extract_text_from_pdf_pages
      [⟨true, some 188⟩, ⟨true, none⟩, ⟨true, some 190⟩] = [188, 2, 190] := by
    unfold extract_text_from_pdf_pages
    rw [show buildPageTexts 0 [⟨true, some 188⟩, ⟨true, none⟩, ⟨true, some 190⟩]
        = ([188, 2, 190], [(0, 188), (2, 190)]) from by decide]
    rw [if_pos (by decide), havg]
    rw [if_neg ?_]
    rintro ⟨-, h2⟩
    rw [abs_of_nonneg (by norm_num)] at h2
    norm_num at h2
  exact ⟨hmain, by rw [hmain]; decide⟩

/-- Claim C4 (amended): on input pages extracting (188, —, 190) the
mean offset 187 exceeds the window bound 20, so no correction happens
and the pages are numbered 188, 2, 190; an analogous input whose mean
offset lies inside the window, pages extracting (10, —, 12) with mean
offset 9, does get the middle page corrected: 10, 11, 12. -/
theorem C4_offset_window :
    extract_text_from_pdf_pages [⟨true, some 188⟩, ⟨true, none⟩, ⟨true, some 190⟩]
      = [188, 2, 190]
    ∧ extract_text_from_pdf_pages [⟨true, some 10⟩, ⟨true, none⟩, ⟨true, some 12⟩]
      = [10, 11, 12] := by
  have h1 : extract_text_from_pdf_pages
      [⟨true, some 188⟩, ⟨true, none⟩, ⟨true, some 190⟩] = [188, 2, 190] := by
    have havg : avgOffset [(0, 188), (2, 190)] = 187 := by
      norm_num [avgOffset]
      all_goals decide
    unfold extract_text_from_pdf_pages
    rw [show buildPageTexts 0 [⟨true, some 188⟩, ⟨true, none⟩, ⟨true, some 190⟩]
        = ([188, 2, 190], [(0, 188), (2, 190)]) from by decide]
    rw [if_pos (by decide), havg]
    rw [if_neg ?_]
    rintro ⟨-, h2⟩
    rw [abs_of_nonneg (by norm_num)] at h2
    norm_num at h2
  have h2 : extract_text_from_pdf_pages
      [⟨true, some 10⟩, ⟨true, none⟩, ⟨true, some 12⟩] = [10, 11, 12] := by
    have havg : avgOffset [(0, 10), (2, 12)] = 9 := by
      norm_num [avgOffset]
      all_goals decide
    unfold extract_text_from_pdf_pages
    rw [show buildPageTexts 0 [⟨true, some 10⟩, ⟨true, none⟩, ⟨true, some 12⟩]
        = ([10, 2, 12], [(0, 10), (2, 12)]) from by decide]
    rw [if_pos (by decide), havg]
    rw [if_pos ⟨by norm_num, by norm_num⟩]
    rw [show pyRound ((9 : ℚ)) = 9 from by
      rw [show ((9 : ℚ)) = ((9 : ℤ) : ℚ) from by norm_num, pyRound_intCast]]
    decide
  exact ⟨h1, h2⟩

theorem mem_insertAvail_keys (src : String) (pg : Option ℤ) (s : String) :
    ∀ m : List (String × List String),
      s ∈ (insertAvail m src pg).map Prod.fst ↔ s ∈ m.map Prod.fst ∨ s = src := by
  intro m
  induction m with
  | nil => cases pg <;> simp [insertAvail]
  | cons hd rest ih =>
    obtain ⟨s1, ps⟩ := hd
    by_cases h : s1 = src
    · subst h
      simp [insertAvail]
      tauto
    · rw [show insertAvail ((s1, ps) :: rest) src pg
          = (s1, ps) :: insertAvail rest src pg from by simp [insertAvail, h]]
      simp only [List.map_cons, List.mem_cons, ih]
      tauto

theorem mem_avail_keys_aux (s : String) :
    ∀ (chunks : List Chunk) (m : List (String × List String)),
      s ∈ ((chunks.foldl (fun m c => insertAvail m (sourceOf c) (metaOf c).page) m).map
        Prod.fst)
      ↔ s ∈ m.map Prod.fst ∨ ∃ c ∈ chunks, sourceOf c = s := by
  intro chunks
  induction chunks with
  | nil => simp
  | cons c rest ih =>
    intro m
    rw [List.foldl_cons, ih, mem_insertAvail_keys]
    simp only [List.mem_cons]
    constructor
    · rintro (⟨h | h⟩ | ⟨d, hd, he⟩)
      · exact Or.inl h
      · exact Or.inr ⟨c, Or.inl rfl, h.symm⟩
      · exact Or.inr ⟨d, Or.inr hd, he⟩
    · rintro (h | ⟨d, (rfl | hd), he⟩)
      · exact Or.inl (Or.inl h)
      · exact Or.inl (Or.inr he.symm)
      · exact Or.inr ⟨d, hd, he⟩

theorem mem_available_sources_keys (chunks : List Chunk) (s : String) :
    s ∈ (get_available_sources chunks).map Prod.fst ↔ ∃ c ∈ chunks, sourceOf c = s := by
  have h := mem_avail_keys_aux s chunks []
  simpa [get_available_sources] using h

/-- Claim C6 (counterexample): with no provided sources but an answer
that still carries an old-style inline citation marker, the fallback
path scores that citation, so `total_citations` is 1, not 0. -/
theorem C6_counterexample :
    (evaluate_citation_accuracy "[Source: a.pdf, Page: 5]".toList [] none).total_citations
      = 1
    ∧ (evaluate_citation_accuracy "[Source: a.pdf, Page: 5]".toList [] none).total_citations
      ≠ 0 := by decide

/-- Claim C6 (amended): when the provided-sources list is empty or
absent AND the answer text contains no extractable
`[Source: ..., Page: N]` citation, `evaluate_citation_accuracy`
returns `total_citations = 0`, `valid_citations = 0`,
`citation_accuracy = 0.0`, and `missing_sources` equal (as a list and
as a set) to all sources available from the retrieved chunks. -/
theorem C6_no_provided_sources (answer : List Char) (chunks : List Chunk)
    (provided : Option (List String))
    (hp : provided = none ∨ provided = some [])
    (hc : extract_citations answer = []) :
    (evaluate_citation_accuracy answer chunks provided).total_citations = 0
    ∧ (evaluate_citation_accuracy answer chunks provided).valid_citations = 0
    ∧ (evaluate_citation_accuracy answer chunks provided).citation_accuracy = 0
    ∧ (evaluate_citation_accuracy answer chunks provided).missing_sources
        = (get_available_sources chunks).map Prod.fst
    ∧ (∀ s, s ∈ (evaluate_citation_accuracy answer chunks provided).missing_sources
        ↔ ∃ c ∈ chunks, sourceOf c = s) := by
  have hps : provided.getD [] = [] := by
    rcases hp with h | h <;> simp [h]
  have he : evaluate_citation_accuracy answer chunks provided
      = ⟨0, 0, 0, (get_available_sources chunks).map Prod.fst, []⟩ := by
    unfold evaluate_citation_accuracy
    rw [hps, hc]
    simp
  rw [he]
  refine ⟨rfl, rfl, rfl, rfl, ?_⟩
  intro s
  exact mem_available_sources_keys chunks s

/-- Witness for C6 at a concrete input: no provided sources, an
answer with no citation markers, one retrieved chunk from `a.pdf`. -/
theorem C6_no_provided_sources_witness :
    (((none : Option (List String)) = none ∨ (none : Option (List String)) = some [])
      ∧ extract_citations "plain answer".toList = [])
    ∧ ((evaluate_citation_accuracy "plain answer".toList
          [⟨some ⟨some "a.pdf", some 5⟩, none, none, none, none⟩] none).total_citations = 0
      ∧ (evaluate_citation_accuracy "plain answer".toList
          [⟨some ⟨some "a.pdf", some 5⟩, none, none, none, none⟩] none).valid_citations = 0
      ∧ (evaluate_citation_accuracy "plain answer".toList
          [⟨some ⟨some "a.pdf", some 5⟩, none, none, none, none⟩] none).citation_accuracy = 0
      ∧ (evaluate_citation_accuracy "plain answer".toList
          [⟨some ⟨some "a.pdf", some 5⟩, none, none, none, none⟩] none).missing_sources
        = (get_available_sources
            [⟨some ⟨some "a.pdf", some 5⟩, none, none, none, none⟩]).map Prod.fst
      ∧ (∀ s, s ∈ (evaluate_citation_accuracy "plain answer".toList
            [⟨some ⟨some "a.pdf", some 5⟩, none, none, none, none⟩] none).missing_sources
          ↔ ∃ c ∈ [(⟨some ⟨some "a.pdf", some 5⟩, none, none, none, none⟩ : Chunk)],
              sourceOf c = s)) :=
  ⟨⟨Or.inl rfl, by decide⟩,
    C6_no_provided_sources "plain answer".toList
      [⟨some ⟨some "a.pdf", some 5⟩, none, none, none, none⟩] none
      (Or.inl rfl) (by decide)⟩

/-- Claim C8: the source attribution as implemented — `rag_pipeline`
deduplicates the retrieved chunks' source *names* only, and the chat
route's string branch emits `display_text` equal to the bare source
name with `page = None`.  Two chunks of `a.pdf` at pages 5 and 6
therefore collapse into a single record whose display text carries no
page, contradicting the claimed one-record-per-`(source, page)` keying
with `"{source} (Page {page})"` display text. -/
theorem C8_source_records_ignore_pages :
    rag_pipeline_sources
      [⟨some ⟨some "a.pdf", some 5⟩, none, none, none, none⟩,
       ⟨some ⟨some "a.pdf", some 6⟩, none, none, none, none⟩] = ["a.pdf"]
    ∧ chat_source_infos "http://h"
        (rag_pipeline_sources
          [⟨some ⟨some "a.pdf", some 5⟩, none, none, none, none⟩,
           ⟨some ⟨some "a.pdf", some 6⟩, none, none, none, none⟩])
      = [⟨"a.pdf", none, "a.pdf", "http://h/documents/view/a.pdf"⟩] := by decide

/-- Claim C9 (counterexample): two runs of the same evaluation input
at different clock readings differ — `EvaluationMetrics` carries the
run's `evaluation_timestamp`, so the metrics objects are not
bit-identical. -/
theorem C9_counterexample :
    EvaluationService_evaluate 0 "" [] [] none
      ≠ EvaluationService_evaluate 1 "" [] [] none := by
  intro h
  have h0 : (EvaluationService_evaluate 0 "" [] [] none).evaluation_timestamp
      = (EvaluationService_evaluate 1 "" [] [] none).evaluation_timestamp := by rw [h]
  have e0 : (EvaluationService_evaluate 0 "" [] [] none).evaluation_timestamp = 0 := rfl
  have e1 : (EvaluationService_evaluate 1 "" [] [] none).evaluation_timestamp = 1 := rfl
  rw [e0, e1] at h0
  exact absurd h0 (by decide)

/-- Claim C9 (amended): the scorers are deterministic — everything in
`EvaluationMetrics` except the `evaluation_timestamp` is a pure
function of `(query, answer, context_chunks, sources)`, so two runs
agree on every sub-metric field and on the overall score, and differ
at most in the timestamp. -/
theorem C9_determinism (t1 t2 : ℤ) (q : String) (answer : List Char)
    (chunks : List Chunk) (sources : Option (List String)) :
    metricsSansTimestamp (EvaluationService_evaluate t1 q answer chunks sources)
      = metricsSansTimestamp (EvaluationService_evaluate t2 q answer chunks sources)
    ∧ EvaluationService_evaluate t1 q answer chunks sources
      = { EvaluationService_evaluate t2 q answer chunks sources with
            evaluation_timestamp := t1 } :=
  ⟨rfl, rfl⟩

/-- Claim C10: the size check multiplies by `1024` three times, so the
"`max_size_mb` megabytes" limit is enforced in gigabytes: an 11·MB
`.txt` upload is accepted even though the error message (and the
parameter name) promise a 10 MB cap, which only trips past 10 GB. -/
theorem C10_size_limit_gigabytes :
    validate_file_upload (some "a.txt") (10 * 1024 * 1024 + 1) 10 = (true, none)
    ∧ validate_file_upload (some "a.txt") (10 * 1024 * 1024 * 1024 + 1) 10
      = (false, some "File size exceeds maximum allowed size of 10MB") := by decide

theorem eca_accuracy_formula (answer : List Char) (chunks : List Chunk)
    (provided : Option (List String)) :
    (evaluate_citation_accuracy answer chunks provided).citation_accuracy
      = if 0 < (evaluate_citation_accuracy answer chunks provided).total_citations
        then ((evaluate_citation_accuracy answer chunks provided).valid_citations : ℚ)
          / ((evaluate_citation_accuracy answer chunks provided).total_citations : ℚ)
        else 0 := by
  by_cases h1 : (!(provided.getD []).isEmpty) = true
  · simp only [evaluate_citation_accuracy, if_pos h1]
  · by_cases h2 : (!(extract_citations answer).isEmpty) = true
    · simp only [evaluate_citation_accuracy, if_neg h1, if_pos h2]
    · simp only [evaluate_citation_accuracy, if_neg h1, if_neg h2]
      rfl

theorem eca_valid_le_total (answer : List Char) (chunks : List Chunk)
    (provided : Option (List String)) :
    (evaluate_citation_accuracy answer chunks provided).valid_citations
      ≤ (evaluate_citation_accuracy answer chunks provided).total_citations := by
  by_cases h1 : (!(provided.getD []).isEmpty) = true
  · simp only [evaluate_citation_accuracy, if_pos h1]
    show List.countP _ _ ≤ (provided.getD []).length
    calc List.countP _ _
        ≤ ((provided.getD []).map (fun s => (parseProvidedSource s, s))).length :=
          List.countP_le_length _
      _ = (provided.getD []).length := by simp
  · by_cases h2 : (!(extract_citations answer).isEmpty) = true
    · simp only [evaluate_citation_accuracy, if_neg h1, if_pos h2]
      exact List.countP_le_length _
    · simp only [evaluate_citation_accuracy, if_neg h1, if_neg h2]
      exact le_rfl


theorem providedPairValid_iff (avail : List (String × List String)) (name : String)
    (page : Option (List Char)) :
    providedPairValid avail name page = true ↔
      ∃ pages, lookupAvail avail name = some pages ∧
        (page = none ∨ page = some ['?'] ∨ pages = [] ∨
          ∃ p, page = some p ∧
            (String.mk p ∈ pages ∨
              (isNatStr p = true ∧ ∃ q ∈ pages, isNatStr q.toList = true
                ∧ digitsToNat q.toList = digitsToNat p))) := by
  unfold providedPairValid
  cases hl : lookupAvail avail name with
  | none => simp
  | some pages =>
    cases page with
    | none => simp
    | some p =>
      show (if p = ['?'] then true
          else if pages.isEmpty = true then true
          else citePageMatches pages p) = true ↔ _
      by_cases hq : p = ['?']
      · subst hq
        simp
      · rw [if_neg hq]
        by_cases he : pages.isEmpty = true
        · rw [if_pos he]
          rw [List.isEmpty_iff] at he
          subst he
          simp
        · rw [if_neg he]
          rw [List.isEmpty_iff] at he
          simp only [citePageMatches, Bool.or_eq_true, decide_eq_true_eq,
            Bool.and_eq_true, List.any_eq_true, Option.some.injEq, beq_iff_eq]
          constructor
          · rintro (h | ⟨hn, q, hq1, hq2, hq3⟩)
            · exact ⟨pages, rfl, Or.inr (Or.inr (Or.inr ⟨p, rfl, Or.inl h⟩))⟩
            · exact ⟨pages, rfl, Or.inr (Or.inr (Or.inr ⟨p, rfl,
                Or.inr ⟨hn, q, hq1, hq2, hq3⟩⟩))⟩
          · rintro ⟨pages2, hp2, hd⟩
            subst hp2
            rcases hd with h | h | h | ⟨p2, hp3, hm⟩
            · exact Option.noConfusion h
            · exact absurd h hq
            · exact absurd h he
            · subst hp3
              rcases hm with h | ⟨hn, q, hq1, hq2, hq3⟩
              · exact Or.inl h
              · exact Or.inr ⟨hn, q, hq1, hq2, hq3⟩

/-- Claim C5 (counterexample): a bare provided entry `"a.pdf"` (no
page token) against available pages `{"5","6"}` is valid in the code
(`page is None` short-circuits to source-only checking), but the
claim's iff — which requires the page token to be `"?"`, or no known
pages, or a page match — calls it invalid. -/
theorem C5_counterexample :
    providedPairValid
      (get_available_sources
        [⟨some ⟨some "a.pdf", some 5⟩, none, none, none, none⟩,
         ⟨some ⟨some "a.pdf", some 6⟩, none, none, none, none⟩]) "a.pdf" none = true
    ∧ ¬ specC5PairValid
      (get_available_sources
        [⟨some ⟨some "a.pdf", some 5⟩, none, none, none, none⟩,
         ⟨some ⟨some "a.pdf", some 6⟩, none, none, none, none⟩]) "a.pdf" none := by
  constructor
  · decide
  · rintro ⟨pages, hl, hd⟩
    rw [show lookupAvail
        (get_available_sources
          [⟨some ⟨some "a.pdf", some 5⟩, none, none, none, none⟩,
           ⟨some ⟨some "a.pdf", some 6⟩, none, none, none, none⟩]) "a.pdf"
        = some ["5", "6"] from by decide] at hl
    injection hl with hl
    subst hl
    rcases hd with h | h | ⟨p, hp, -⟩
    · exact Option.noConfusion h
    · exact absurd h (by decide)
    · exact Option.noConfusion hp

/-- Claim C5 (amended): a provided entry is valid iff its parsed
source is among the available sources AND (the entry has no page
token at all, OR the token is "?", OR that source has no known pages,
OR the token matches a known page as a string or as an integer); and
the two concrete scenarios: `["a.pdf (Page 5)", "b.pdf"]` against
`{"a.pdf": {"5","6"}}` scores 1/2 with empty `missing_sources` and
`"b.pdf"` invalid, while `["a.pdf (Page 9)"]` scores 0 with that
entry invalid. -/
theorem C5_provided_citation_validity :
    (∀ (avail : List (String × List String)) (name : String) (page : Option (List Char)),
      providedPairValid avail name page = true ↔
        ∃ pages, lookupAvail avail name = some pages ∧
          (page = none ∨ page = some ['?'] ∨ pages = [] ∨
            ∃ p, page = some p ∧
              (String.mk p ∈ pages ∨
                (isNatStr p = true ∧ ∃ q ∈ pages, isNatStr q.toList = true
                  ∧ digitsToNat q.toList = digitsToNat p))))
    ∧ ((evaluate_citation_accuracy []
          [⟨some ⟨some "a.pdf", some 5⟩, none, none, none, none⟩,
           ⟨some ⟨some "a.pdf", some 6⟩, none, none, none, none⟩]
          (some ["a.pdf (Page 5)", "b.pdf"])).total_citations = 2
      ∧ (evaluate_citation_accuracy []
          [⟨some ⟨some "a.pdf", some 5⟩, none, none, none, none⟩,
           ⟨some ⟨some "a.pdf", some 6⟩, none, none, none, none⟩]
          (some ["a.pdf (Page 5)", "b.pdf"])).valid_citations = 1
      ∧ (evaluate_citation_accuracy []
          [⟨some ⟨some "a.pdf", some 5⟩, none, none, none, none⟩,
           ⟨some ⟨some "a.pdf", some 6⟩, none, none, none, none⟩]
          (some ["a.pdf (Page 5)", "b.pdf"])).citation_accuracy = 1 / 2
      ∧ (evaluate_citation_accuracy []
          [⟨some ⟨some "a.pdf", some 5⟩, none, none, none, none⟩,
           ⟨some ⟨some "a.pdf", some 6⟩, none, none, none, none⟩]
          (some ["a.pdf (Page 5)", "b.pdf"])).missing_sources = []
      ∧ (evaluate_citation_accuracy []
          [⟨some ⟨some "a.pdf", some 5⟩, none, none, none, none⟩,
           ⟨some ⟨some "a.pdf", some 6⟩, none, none, none, none⟩]
          (some ["a.pdf (Page 5)", "b.pdf"])).invalid_citations = ["b.pdf"])
    ∧ ((evaluate_citation_accuracy []
          [⟨some ⟨some "a.pdf", some 5⟩, none, none, none, none⟩,
           ⟨some ⟨some "a.pdf", some 6⟩, none, none, none, none⟩]
          (some ["a.pdf (Page 9)"])).valid_citations = 0
      ∧ (evaluate_citation_accuracy []
          [⟨some ⟨some "a.pdf", some 5⟩, none, none, none, none⟩,
           ⟨some ⟨some "a.pdf", some 6⟩, none, none, none, none⟩]
          (some ["a.pdf (Page 9)"])).citation_accuracy = 0
      ∧ (evaluate_citation_accuracy []
          [⟨some ⟨some "a.pdf", some 5⟩, none, none, none, none⟩,
           ⟨some ⟨some "a.pdf", some 6⟩, none, none, none, none⟩]
          (some ["a.pdf (Page 9)"])).invalid_citations = ["a.pdf (Page 9)"]) := by
  refine ⟨?_, ⟨by decide, by decide, ?_, by decide, by decide⟩,
    ⟨by decide, ?_, by decide⟩⟩
  · intro avail name page
    exact providedPairValid_iff avail name page
  · have h := eca_accuracy_formula []
      [⟨some ⟨some "a.pdf", some 5⟩, none, none, none, none⟩,
       ⟨some ⟨some "a.pdf", some 6⟩, none, none, none, none⟩]
      (some ["a.pdf (Page 5)", "b.pdf"])
    rw [show (evaluate_citation_accuracy []
          [⟨some ⟨some "a.pdf", some 5⟩, none, none, none, none⟩,
           ⟨some ⟨some "a.pdf", some 6⟩, none, none, none, none⟩]
          (some ["a.pdf (Page 5)", "b.pdf"])).total_citations = 2 from by decide,
      show (evaluate_citation_accuracy []
          [⟨some ⟨some "a.pdf", some 5⟩, none, none, none, none⟩,
           ⟨some ⟨some "a.pdf", some 6⟩, none, none, none, none⟩]
          (some ["a.pdf (Page 5)", "b.pdf"])).valid_citations = 1 from by decide] at h
    rw [h]
    norm_num
  · have h := eca_accuracy_formula []
      [⟨some ⟨some "a.pdf", some 5⟩, none, none, none, none⟩,
       ⟨some ⟨some "a.pdf", some 6⟩, none, none, none, none⟩]
      (some ["a.pdf (Page 9)"])
    rw [show (evaluate_citation_accuracy []
          [⟨some ⟨some "a.pdf", some 5⟩, none, none, none, none⟩,
           ⟨some ⟨some "a.pdf", some 6⟩, none, none, none, none⟩]
          (some ["a.pdf (Page 9)"])).total_citations = 1 from by decide,
      show (evaluate_citation_accuracy []
          [⟨some ⟨some "a.pdf", some 5⟩, none, none, none, none⟩,
           ⟨some ⟨some "a.pdf", some 6⟩, none, none, none, none⟩]
          (some ["a.pdf (Page 9)"])).valid_citations = 0 from by decide] at h
    rw [h]
    norm_num

theorem notEmpty_and_any (f : List Char → Bool) (l : List (List Char)) :
    (!l.isEmpty && l.any f) = l.any f := by
  cases l <;> simp

theorem supportedByChunk_iff (claim : List Char) (ch : Chunk)
    (hw : meaningfulWords (pyStrip (toLowerList claim)) ≠ []) :
    supportedByChunk claim (pyStrip (toLowerList claim))
        (meaningfulWords (pyStrip (toLowerList claim))) ch = true ↔
      (chunkTextLower ch ≠ []
       ∧ ((∃ p ∈ claimPhrases (pyStrip (toLowerList claim)),
             containsSub p (chunkTextLower ch) = true)
          ∨ (2 : ℚ) / 5 ≤
              (((meaningfulWords (pyStrip (toLowerList claim))).filter
                  (fun w => (meaningfulWords (chunkTextLower ch)).contains w)).length : ℚ)
                / ((meaningfulWords (pyStrip (toLowerList claim))).length : ℚ)
          ∨ (∃ t ∈ importantTerms claim,
              containsSub (toLowerList t) (chunkTextLower ch) = true))) := by
  simp only [supportedByChunk]
  by_cases hct : (chunkTextLower ch).isEmpty = true
  · rw [if_pos hct]
    rw [List.isEmpty_iff] at hct
    constructor
    · intro h
      exact absurd h (by simp)
    · rintro ⟨hne, -⟩
      exact absurd hct hne
  · rw [if_neg hct]
    rw [List.isEmpty_iff] at hct
    have hwe : ¬ ((meaningfulWords (pyStrip (toLowerList claim))).isEmpty = true) := by
      rw [List.isEmpty_iff]
      exact hw
    rw [if_neg hwe, notEmpty_and_any, notEmpty_and_any]
    simp only [Bool.or_eq_true, List.any_eq_true, decide_eq_true_eq]
    constructor
    · rintro ((h | h) | h)
      · exact ⟨hct, Or.inl h⟩
      · exact ⟨hct, Or.inr (Or.inl h)⟩
      · exact ⟨hct, Or.inr (Or.inr h)⟩
    · rintro ⟨-, (h | h | h)⟩
      · exact Or.inl (Or.inl h)
      · exact Or.inl (Or.inr h)
      · exact Or.inr h

/-- Claim C7 (counterexample): the claim
`"Napoleon zzzz qqqq wwww rrrr tttt yyyy"` against the single passage
`"napoleon"` shares no 3-word phrase, has meaningful-word overlap only
1/7 < 0.4, and contains no multi-word capitalized term and no number —
so the claim's rule says unsupported; but the code's named-entity
check also accepts single capitalized words, finds `Napoleon` in the
passage, and marks the claim supported. -/
theorem C7_counterexample :
    check_claim_support "Napoleon zzzz qqqq wwww rrrr tttt yyyy".toList
        [⟨none, none, none, some "napoleon", none⟩] = true
    ∧ ¬ claimC7Supported "Napoleon zzzz qqqq wwww rrrr tttt yyyy".toList
        [⟨none, none, none, some "napoleon", none⟩] := by
  constructor
  · have h1 : check_claim_support "Napoleon zzzz qqqq wwww rrrr tttt yyyy".toList
        [⟨none, none, none, some "napoleon", none⟩]
        = List.any [⟨none, none, none, some "napoleon", none⟩]
            (supportedByChunk "Napoleon zzzz qqqq wwww rrrr tttt yyyy".toList
              (pyStrip (toLowerList "Napoleon zzzz qqqq wwww rrrr tttt yyyy".toList))
              (meaningfulWords
                (pyStrip (toLowerList "Napoleon zzzz qqqq wwww rrrr tttt yyyy".toList)))) := by
      simp only [check_claim_support]
      rw [if_neg (by decide), if_neg (by decide)]
    rw [h1, List.any_cons, List.any_nil, Bool.or_false]
    rw [supportedByChunk_iff _ _ (by decide)]
    refine ⟨by decide, Or.inr (Or.inr ?_)⟩
    decide
  · rintro ⟨ch, hch, hcond⟩
    rw [List.mem_singleton] at hch
    subst hch
    rcases hcond with h | h | h
    · exact absurd h (by decide)
    · rw [show ((meaningfulWords (pyStrip (toLowerList
          "Napoleon zzzz qqqq wwww rrrr tttt yyyy".toList))).filter
            (fun w => (meaningfulWords (chunkTextLower
              ⟨none, none, none, some "napoleon", none⟩)).contains w)).length = 1
          from by decide,
        show (meaningfulWords (pyStrip (toLowerList
          "Napoleon zzzz qqqq wwww rrrr tttt yyyy".toList))).length = 7
          from by decide] at h
      norm_num at h
    · exact absurd h (by decide)

/-- Claim C7 (amended): `check_claim_support` returns true iff the
claim passes the guards (non-empty, stripped length ≥ 10, at least
one meaningful word) and some single passage with non-empty text
satisfies (a) some 3-word phrase of the claim *longer than 10
characters* appears verbatim in the passage, or (b) the fraction of
the claim's distinct meaningful words present among the passage's
meaningful words is ≥ 0.4, or (c) some term matched by the
named-entity pattern — a standalone number or a capitalized word
sequence, *including a single capitalized word* — appears (lowercased,
as a substring) in the passage. -/
theorem C7_support_characterization (claim : List Char) (chunks : List Chunk) :
    check_claim_support claim chunks = true ↔
      (¬ (claim.isEmpty = true ∨ (pyStrip claim).length < 10)
       ∧ meaningfulWords (pyStrip (toLowerList claim)) ≠ []
       ∧ ∃ ch ∈ chunks,
           chunkTextLower ch ≠ []
           ∧ ((∃ p ∈ claimPhrases (pyStrip (toLowerList claim)),
                 containsSub p (chunkTextLower ch) = true)
              ∨ (2 : ℚ) / 5 ≤
                  (((meaningfulWords (pyStrip (toLowerList claim))).filter
                      (fun w => (meaningfulWords (chunkTextLower ch)).contains w)).length : ℚ)
                    / ((meaningfulWords (pyStrip (toLowerList claim))).length : ℚ)
              ∨ (∃ t ∈ importantTerms claim,
                  containsSub (toLowerList t) (chunkTextLower ch) = true))) := by
  simp only [check_claim_support]
  by_cases h1 : (claim.isEmpty || decide ((pyStrip claim).length < 10)) = true
  · rw [if_pos h1]
    simp only [Bool.or_eq_true, decide_eq_true_eq] at h1
    constructor
    · intro h
      exact absurd h (by simp)
    · rintro ⟨hg, -⟩
      exact absurd h1 hg
  · rw [if_neg h1]
    simp only [Bool.or_eq_true, decide_eq_true_eq] at h1
    by_cases h2 : (meaningfulWords (pyStrip (toLowerList claim))).isEmpty = true
    · rw [if_pos h2]
      rw [List.isEmpty_iff] at h2
      constructor
      · intro h
        exact absurd h (by simp)
      · rintro ⟨-, hwne, -⟩
        exact absurd h2 hwne
    · rw [if_neg h2]
      rw [List.isEmpty_iff] at h2
      rw [List.any_eq_true]
      constructor
      · rintro ⟨ch, hch, hsb⟩
        exact ⟨h1, h2, ch, hch, (supportedByChunk_iff claim ch h2).mp hsb⟩
      · rintro ⟨-, -, ch, hch, hcond⟩
        exact ⟨ch, hch, (supportedByChunk_iff claim ch h2).mpr hcond⟩

theorem le_pyRound (a : ℤ) (x : ℚ) (h : (a : ℚ) ≤ x) : a ≤ pyRound x := by
  have hf : a ≤ ⌊x⌋ := Int.le_floor.mpr h
  unfold pyRound
  split_ifs <;> omega

theorem pyRound_le (b : ℤ) (x : ℚ) (h : x ≤ b) : pyRound x ≤ b := by
  have hfb : ⌊x⌋ ≤ b := by
    have h2 := Int.floor_mono h
    rwa [Int.floor_intCast] at h2
  unfold pyRound
  split_ifs with h1 h2 h3
  · exact hfb
  · have hge : (1 : ℚ) / 2 ≤ x - ⌊x⌋ := not_lt.mp h1
    have hgt : ((⌊x⌋ : ℤ) : ℚ) < x := by linarith
    have hlt : ((⌊x⌋ : ℤ) : ℚ) < ((b : ℤ) : ℚ) := lt_of_lt_of_le hgt h
    have hib : ⌊x⌋ < b := by exact_mod_cast hlt
    omega
  · exact hfb
  · have hge : (1 : ℚ) / 2 ≤ x - ⌊x⌋ := not_lt.mp h1
    have hgt : ((⌊x⌋ : ℤ) : ℚ) < x := by linarith
    have hlt : ((⌊x⌋ : ℤ) : ℚ) < ((b : ℤ) : ℚ) := lt_of_lt_of_le hgt h
    have hib : ⌊x⌋ < b := by exact_mod_cast hlt
    omega

theorem pyRound3_mem_unit (q : ℚ) (h0 : 0 ≤ q) (h1 : q ≤ 1) :
    0 ≤ pyRound3 q ∧ pyRound3 q ≤ 1 := by
  have ha : (0 : ℤ) ≤ pyRound (q * 1000) := le_pyRound 0 _ (by push_cast; linarith)
  have hb : pyRound (q * 1000) ≤ (1000 : ℤ) := pyRound_le 1000 _ (by push_cast; linarith)
  unfold pyRound3
  constructor
  · apply div_nonneg _ (by norm_num)
    exact_mod_cast ha
  · rw [div_le_one (by norm_num)]
    exact_mod_cast hb

theorem pyRound3_intCast (n : ℤ) : pyRound3 ((n : ℤ) : ℚ) = n := by
  unfold pyRound3
  rw [show ((n : ℚ) * 1000) = (((n * 1000 : ℤ)) : ℚ) from by push_cast; ring,
    pyRound_intCast]
  push_cast
  field_simp

theorem eca_accuracy_mem (answer : List Char) (chunks : List Chunk)
    (provided : Option (List String)) :
    0 ≤ (evaluate_citation_accuracy answer chunks provided).citation_accuracy
    ∧ (evaluate_citation_accuracy answer chunks provided).citation_accuracy ≤ 1 := by
  rw [eca_accuracy_formula]
  by_cases h : 0 < (evaluate_citation_accuracy answer chunks provided).total_citations
  · rw [if_pos h]
    have hle := eca_valid_le_total answer chunks provided
    constructor
    · exact div_nonneg (Nat.cast_nonneg _) (Nat.cast_nonneg _)
    · rw [div_le_one (by exact_mod_cast h)]
      exact_mod_cast hle
  · rw [if_neg h]
    norm_num

theorem af_fields (answer : List Char) (chunks : List Chunk) :
    (evaluate_answer_faithfulness answer chunks).supported_claims
      ≤ (evaluate_answer_faithfulness answer chunks).total_claims
    ∧ (evaluate_answer_faithfulness answer chunks).faithfulness_score
      = if 0 < (evaluate_answer_faithfulness answer chunks).total_claims
        then ((evaluate_answer_faithfulness answer chunks).supported_claims : ℚ)
          / ((evaluate_answer_faithfulness answer chunks).total_claims : ℚ)
        else 0 := by
  simp only [evaluate_answer_faithfulness]
  by_cases h : (extract_claims answer).isEmpty = true
  · rw [if_pos h]
    exact ⟨le_rfl, rfl⟩
  · rw [if_neg h]
    exact ⟨List.length_filter_le _ _, rfl⟩

theorem af_score_mem (answer : List Char) (chunks : List Chunk) :
    0 ≤ (evaluate_answer_faithfulness answer chunks).faithfulness_score
    ∧ (evaluate_answer_faithfulness answer chunks).faithfulness_score ≤ 1 := by
  obtain ⟨hle, hf⟩ := af_fields answer chunks
  rw [hf]
  by_cases h : 0 < (evaluate_answer_faithfulness answer chunks).total_claims
  · rw [if_pos h]
    constructor
    · exact div_nonneg (Nat.cast_nonneg _) (Nat.cast_nonneg _)
    · rw [div_le_one (by exact_mod_cast h)]
      exact_mod_cast hle
  · rw [if_neg h]
    norm_num

theorem similarities_mem (chunks : List Chunk)
    (h : ∀ c ∈ chunks, chunkSimilarityBounded c) :
    ∀ x ∈ chunks.filterMap chunkSimilarityVal, 0 ≤ x ∧ x ≤ 1 := by
  intro x hx
  rw [List.mem_filterMap] at hx
  obtain ⟨c, hc, hcx⟩ := hx
  obtain ⟨hs, hd⟩ := h c hc
  unfold chunkSimilarityVal at hcx
  cases hsim : c.similarity with
  | some s =>
    rw [hsim] at hcx
    injection hcx with h2
    subst h2
    exact hs s hsim
  | none =>
    rw [hsim] at hcx
    cases hdist : c.distance with
    | some d =>
      rw [hdist] at hcx
      injection hcx with h2
      subst h2
      have hd0 := hd d hdist
      exact ⟨le_max_left 0 _, max_le (by norm_num) (by linarith)⟩
    | none =>
      rw [hdist] at hcx
      exact Option.noConfusion hcx

theorem avg_mem_unit (l : List ℚ) (hne : l ≠ []) (h : ∀ x ∈ l, 0 ≤ x ∧ x ≤ 1) :
    0 ≤ l.sum / (l.length : ℚ) ∧ l.sum / (l.length : ℚ) ≤ 1 := by
  have hpos : (0 : ℚ) < (l.length : ℚ) := by
    have hl := List.length_pos.mpr hne
    exact_mod_cast hl
  have hsum0 : 0 ≤ l.sum := List.sum_nonneg (fun x hx => (h x hx).1)
  have hsum1 : l.sum ≤ (l.length : ℚ) := by
    have h2 : l.sum ≤ l.length • (1 : ℚ) :=
      List.sum_le_card_nsmul l 1 (fun x hx => (h x hx).2)
    rwa [nsmul_eq_mul, mul_one] at h2
  exact ⟨div_nonneg hsum0 (le_of_lt hpos), (div_le_one hpos).mpr hsum1⟩

theorem relevance_avg_mem (chunks : List Chunk) (q : String) (th : ℚ)
    (h : ∀ c ∈ chunks, chunkSimilarityBounded c) :
    0 ≤ (evaluate_context_relevance chunks q th).average_similarity
    ∧ (evaluate_context_relevance chunks q th).average_similarity ≤ 1 := by
  simp only [evaluate_context_relevance]
  by_cases hc : chunks.isEmpty = true
  · rw [if_pos hc]
    exact ⟨le_rfl, by norm_num⟩
  · rw [if_neg hc]
    cases hfm : chunks.filterMap chunkSimilarityVal with
    | nil => exact ⟨le_rfl, by norm_num⟩
    | cons s rest =>
      have hmem := similarities_mem chunks h
      rw [hfm] at hmem
      have havg := avg_mem_unit (s :: rest) (by simp) hmem
      exact pyRound3_mem_unit _ havg.1 havg.2

theorem overall_mem (ca : CitationAccuracy) (cr : ContextRelevance)
    (af : AnswerFaithfulness)
    (h1 : 0 ≤ ca.citation_accuracy ∧ ca.citation_accuracy ≤ 1)
    (h2 : 0 ≤ cr.average_similarity ∧ cr.average_similarity ≤ 1)
    (h3 : 0 ≤ af.faithfulness_score ∧ af.faithfulness_score ≤ 1) :
    0 ≤ compute_overall_score ca cr af ∧ compute_overall_score ca cr af ≤ 1 := by
  unfold compute_overall_score
  apply pyRound3_mem_unit
  · obtain ⟨a1, -⟩ := h1
    obtain ⟨b1, -⟩ := h2
    obtain ⟨c1, -⟩ := h3
    linarith
  · obtain ⟨-, a2⟩ := h1
    obtain ⟨-, b2⟩ := h2
    obtain ⟨-, c2⟩ := h3
    linarith

/-- Claim C1 (amended): the overall score is always the fixed
combination 0.3·citation + 0.2·relevance + 0.5·faithfulness rounded
to 3 decimals; `citation_accuracy` and `faithfulness_score` lie in
[0,1] for *every* input, and when every retrieved chunk's similarity
input is well-formed (`similarity ∈ [0,1]`, `distance ≥ 0`) the
average similarity and the overall score lie in [0,1] too. -/
theorem C1_overall_score_bounds (t : ℤ) (q : String) (answer : List Char)
    (chunks : List Chunk) (sources : Option (List String))
    (h : ∀ c ∈ chunks, chunkSimilarityBounded c) :
    metricsWithinBounds (EvaluationService_evaluate t q answer chunks sources) := by
  refine ⟨rfl, eca_accuracy_mem answer chunks sources,
    relevance_avg_mem chunks q (1 / 2) h, af_score_mem answer chunks, ?_⟩
  exact overall_mem _ _ _ (eca_accuracy_mem answer chunks sources)
    (relevance_avg_mem chunks q (1 / 2) h) (af_score_mem answer chunks)

/-- Witness for C1 (amended) at a concrete input: one chunk with
similarity 1/2. -/
theorem C1_overall_score_bounds_witness :
    (∀ c ∈ [(⟨none, some (1 / 2), none, none, none⟩ : Chunk)], chunkSimilarityBounded c)
    ∧ metricsWithinBounds (EvaluationService_evaluate 0 "" []
        [⟨none, some (1 / 2), none, none, none⟩] none) := by
  have hp : ∀ c ∈ [(⟨none, some (1 / 2), none, none, none⟩ : Chunk)],
      chunkSimilarityBounded c := by
    intro c hc
    rw [List.mem_singleton] at hc
    subst hc
    constructor
    · intro s hs
      injection hs with h2
      subst h2
      norm_num
    · intro d hd
      exact Option.noConfusion hd
  exact ⟨hp, C1_overall_score_bounds 0 "" [] _ none hp⟩

/-- Claim C1 (counterexample): one retrieved chunk carrying
`similarity: 6` (an arbitrary similarity value, as the claim allows)
drives `average_similarity` to 6 ∉ [0,1] and the overall score to
0.2·6 = 1.2 ∉ [0,1]. -/
theorem C1_counterexample :
    (EvaluationService_evaluate 0 "" [] [⟨none, some 6, none, none, none⟩]
        none).context_relevance.average_similarity = 6
    ∧ (EvaluationService_evaluate 0 "" [] [⟨none, some 6, none, none, none⟩]
        none).overall_score = 6 / 5
    ∧ ¬ ((EvaluationService_evaluate 0 "" [] [⟨none, some 6, none, none, none⟩]
        none).overall_score ≤ 1) := by
  have h1 : (EvaluationService_evaluate 0 "" [] [⟨none, some 6, none, none, none⟩]
      none).context_relevance.average_similarity
      = pyRound3 (List.sum [(6 : ℚ)] / ((List.length [(6 : ℚ)] : ℕ) : ℚ)) := rfl
  have h1v : (EvaluationService_evaluate 0 "" [] [⟨none, some 6, none, none, none⟩]
      none).context_relevance.average_similarity = 6 := by
    rw [h1, show List.sum [(6 : ℚ)] / ((List.length [(6 : ℚ)] : ℕ) : ℚ) = ((6 : ℤ) : ℚ)
        from by push_cast; simp, pyRound3_intCast]
    norm_num
  have h2 : (EvaluationService_evaluate 0 "" [] [⟨none, some 6, none, none, none⟩]
      none).citation_accuracy.citation_accuracy = 0 := rfl
  have h3 : (EvaluationService_evaluate 0 "" [] [⟨none, some 6, none, none, none⟩]
      none).answer_faithfulness.faithfulness_score = 0 := rfl
  have h4 : (EvaluationService_evaluate 0 "" [] [⟨none, some 6, none, none, none⟩]
      none).overall_score
      = pyRound3 ((EvaluationService_evaluate 0 "" [] [⟨none, some 6, none, none, none⟩]
          none).citation_accuracy.citation_accuracy * (3 / 10)
        + (EvaluationService_evaluate 0 "" [] [⟨none, some 6, none, none, none⟩]
          none).context_relevance.average_similarity * (1 / 5)
        + (EvaluationService_evaluate 0 "" [] [⟨none, some 6, none, none, none⟩]
          none).answer_faithfulness.faithfulness_score * (1 / 2)) := rfl
  have h4v : (EvaluationService_evaluate 0 "" [] [⟨none, some 6, none, none, none⟩]
      none).overall_score = 6 / 5 := by
    rw [h4, h2, h3, h1v]
    rw [show ((0 : ℚ) * (3 / 10) + 6 * (1 / 5) + 0 * (1 / 2)) = ((6 : ℚ) / 5)
      from by norm_num]
    unfold pyRound3
    rw [show ((6 : ℚ) / 5 * 1000) = (((1200 : ℤ)) : ℚ) from by norm_num, pyRound_intCast]
    norm_num
  refine ⟨h1v, h4v, ?_⟩
  rw [h4v]
  norm_num
